import Mathlib

/-!
Shallow embedding of the CockroachDB-backed SCD Operation store
(`pkg/scd/store/cockroach/operations.go`): the `scd_operations`,
`scd_cells_operations` and `scd_subscriptions` relations, the SQL
statements the store issues, and the store methods `UpsertOperation`,
`DeleteOperation` and `searchOperations` built on them.

The backing state is a `DB` record holding the three relations as lists
of rows.  Each SQL write statement is embedded as a `DB → DB` function;
write statements are executed through `execW`, which consumes a fault
oracle (`List Bool`) so that any write statement in a sequence may fail,
as statements against a real backing store may.  Each write path returns
the error-or-result together with the connection-level state and the
remaining oracle.  Timestamps and altitudes are embedded as `Int`
(`none` = SQL NULL = unbounded); `transaction_timestamp()` is a `now`
parameter supplied by the caller.
-/

namespace DSS

/-- Modelled from the spec: `scdmodels.NewOVNFromTime` is not in `src/`.
Per the spec (section 4.1) the OVN is a deterministic, collision-resistant
pure function of the record's last-modified timestamp and its ID; we embed
the token as the pair itself, which is deterministic and injective. -/
structure OVN where
  updatedAt : Int
  opId : Nat
deriving DecidableEq, Repr

def NewOVNFromTime (updatedAt : Int) (opId : Nat) : OVN :=
  { updatedAt := updatedAt, opId := opId }

/-- Operation lifecycle states; `unknown` is the zero value a row scan
produces (the state is not a column of `scd_operations`). -/
inductive OpState where
  | accepted
  | activated
  | nonconforming
  | contingent
  | ended
  | unknown
deriving DecidableEq, Repr

/-- Error kinds produced by the store (`dsserr` codes plus
`scderr.ErrMissingOVNs`, which carries the ID of the Operation named in
the `Missing OVN for Operation %s` message, and a generic internal error
for backing-store failures). -/
inductive Err where
  | notFound
  | alreadyExists
  | versionMismatch
  | permissionDenied
  | badRequest
  | missingOVNs (opId : Nat)
  | internal
deriving DecidableEq, Repr

/-- A row of `scd_operations`, with the ten columns listed in
`operationFieldsWithIndices`. -/
structure OpRow where
  id : Nat
  owner : Nat
  version : Nat
  url : String
  altitude_lower : Option Int
  altitude_upper : Option Int
  starts_at : Option Int
  ends_at : Option Int
  subscription_id : Nat
  updated_at : Int
deriving DecidableEq, Repr

/-- A row of `scd_cells_operations`. -/
structure CellRow where
  cell_id : Nat
  cell_level : Nat
  operation_id : Nat
deriving DecidableEq, Repr

/-- A row of `scd_subscriptions` as far as this store touches it: the
`id`, `owner` and `implicit` columns named by
`deleteImplicitSubscriptionQuery`, plus the subscription's cell set,
which the subscription side of the store (not in `src/`) maintains and
`fetchSubscriptionsForNotification` intersects. -/
structure SubRow where
  id : Nat
  owner : Nat
  implicit : Bool
  cells : List Nat
deriving DecidableEq, Repr

/-- The backing database state. -/
structure DB where
  scd_operations : List OpRow
  scd_cells_operations : List CellRow
  scd_subscriptions : List SubRow
deriving DecidableEq, Repr

/-- `scdmodels.Operation` as this file uses it. -/
structure Operation where
  id : Nat
  owner : Nat
  version : Nat
  ussBaseURL : String
  altitudeLower : Option Int
  altitudeUpper : Option Int
  startTime : Option Int
  endTime : Option Int
  subscriptionID : Nat
  ovn : OVN
  state : OpState
  cells : List Nat
deriving DecidableEq, Repr

/-- Trailing zero bits of `n` (with enough fuel for 64-bit cell ids). -/
def tzAux : Nat → Nat → Nat
  | 0, _ => 0
  | fuel + 1, n => if n % 2 = 1 ∨ n = 0 then 0 else tzAux fuel (n / 2) + 1

/-- `s2.CellID.Level`: the s2 geometry library is an external collaborator;
a cell's subdivision level is derived from the trailing zero bits of its
64-bit id as `30 - tz/2`. -/
def cellLevel (c : Nat) : Nat := 30 - tzAux 64 c / 2

/-- The row scan of `fetchOperations`: the ten columns are copied into an
`Operation` and the OVN is recomputed as `NewOVNFromTime(updated_at, id)`;
the state and the cell set are not stored on the row, so the scanned
Operation carries their zero values. -/
def rowToOperation (r : OpRow) : Operation :=
  { id := r.id, owner := r.owner, version := r.version, ussBaseURL := r.url,
    altitudeLower := r.altitude_lower, altitudeUpper := r.altitude_upper,
    startTime := r.starts_at, endTime := r.ends_at,
    subscriptionID := r.subscription_id,
    ovn := NewOVNFromTime r.updated_at r.id,
    state := OpState.unknown, cells := [] }

/-- `fetchOperationByID` through `fetchOperation`: `SELECT ... WHERE id = $1`,
returning `none` for `sql.ErrNoRows` and an error when more than one row
matches. -/
def fetchOperationByID (db : DB) (id : Nat) : Except Err (Option Operation) :=
  match db.scd_operations.filter (fun r => decide (r.id = id)) with
  | [] => Except.ok none
  | [r] => Except.ok (some (rowToOperation r))
  | _ => Except.error Err.internal

/-- A spatial footprint (`dssmodels.Geometry`), specified only at its
interface boundary: `CalculateCovering` either yields a cell covering or
fails.  The `GeometryFunc` closure built in `UpsertOperation` is the
`covering` case applied to the new Operation's cells. -/
inductive Geometry where
  | covering (cells : List Nat)
  | degenerate
deriving DecidableEq, Repr

def CalculateCovering : Geometry → Except Unit (List Nat)
  | Geometry.covering cells => Except.ok cells
  | Geometry.degenerate => Except.error ()

/-- `dssmodels.Volume3D`. -/
structure Volume3D where
  altitudeLo : Option Int
  altitudeHi : Option Int
  footprint : Option Geometry
deriving DecidableEq, Repr

/-- `dssmodels.Volume4D`. -/
structure Volume4D where
  startTime : Option Int
  endTime : Option Int
  spatialVolume : Option Volume3D
deriving DecidableEq, Repr

/-- `COALESCE(a >= b, true)`: the SQL comparison is NULL — hence coalesced
to true — when either operand is NULL. -/
def coalesceGe (a b : Option Int) : Bool :=
  match a, b with
  | some x, some y => decide (y ≤ x)
  | _, _ => true

/-- `COALESCE(a <= b, true)`. -/
def coalesceLe (a b : Option Int) : Bool :=
  match a, b with
  | some x, some y => decide (x ≤ y)
  | _, _ => true

/-- The WHERE clause of `operationsIntersectingVolumeQuery`:
`COALESCE(altitude_upper >= $2, true) AND COALESCE(altitude_lower <= $3, true)
AND COALESCE(ends_at >= $4, true) AND COALESCE(starts_at <= $5, true)`. -/
def rowMatchesBounds (r : OpRow) (altLo altHi t0 t1 : Option Int) : Bool :=
  coalesceGe r.altitude_upper altLo && coalesceLe r.altitude_lower altHi &&
    coalesceGe r.ends_at t0 && coalesceLe r.starts_at t1

/-- The JOIN of `operationsIntersectingVolumeQuery`: the row joins the
`SELECT DISTINCT operation_id FROM scd_cells_operations WHERE cell_id = ANY($1)`
subquery exactly when some cell row of the operation lies in the queried
cell set. -/
def rowInCells (db : DB) (cids : List Nat) (r : OpRow) : Bool :=
  db.scd_cells_operations.any fun c =>
    decide (c.operation_id = r.id) && decide (c.cell_id ∈ cids)

/-- `searchOperations`: BadRequest when the spatial footprint is missing,
its covering computation fails, or the covering is empty; otherwise the
rows joining the distinct-operation cell subquery and passing the
altitude/time bounds. -/
def searchOperations (db : DB) (v4d : Volume4D) : Except Err (List Operation) :=
  match v4d.spatialVolume with
  | none => Except.error Err.badRequest
  | some sv =>
    match sv.footprint with
    | none => Except.error Err.badRequest
    | some g =>
      match CalculateCovering g with
      | Except.error _ => Except.error Err.badRequest
      | Except.ok cells =>
        if cells.isEmpty then Except.error Err.badRequest
        else Except.ok
          ((db.scd_operations.filter fun r =>
              rowInCells db cells r &&
                rowMatchesBounds r sv.altitudeLo sv.altitudeHi v4d.startTime
                  v4d.endTime).map rowToOperation)

/-- Executes one write statement on the connection, consuming one flag of
the fault oracle; a raised fault surfaces as the backing store's generic
error and leaves the connection state at the point of failure (an
individual SQL statement is atomic). -/
def execW (stmt : DB → DB) (db : DB) (fl : List Bool) :
    Except Err Unit × DB × List Bool :=
  match fl with
  | [] => (Except.ok (), stmt db, [])
  | b :: rest =>
    if b then (Except.error Err.internal, db, rest)
    else (Except.ok (), stmt db, rest)

/-- The row written by `upsertOperationsQuery`: the CTE reads the stored
version of the id, and the UPSERT writes
`version = COALESCE((SELECT version from v), 0) + 1` and
`updated_at = transaction_timestamp()`. -/
def newOpRow (db : DB) (op : Operation) (now : Int) : OpRow :=
  { id := op.id, owner := op.owner,
    version := (match db.scd_operations.filter (fun r => decide (r.id = op.id)) with
                | r :: _ => r.version
                | [] => 0) + 1,
    url := op.ussBaseURL,
    altitude_lower := op.altitudeLower, altitude_upper := op.altitudeUpper,
    starts_at := op.startTime, ends_at := op.endTime,
    subscription_id := op.subscriptionID, updated_at := now }

/-- `upsertOperationsQuery` as a statement: the UPSERT keyed on `id`
replaces any stored row of that id with `newOpRow`. -/
def upsertOpRowStmt (op : Operation) (now : Int) (db : DB) : DB :=
  { db with scd_operations :=
      newOpRow db op now :: db.scd_operations.filter (fun r => decide (r.id ≠ op.id)) }

/-- `upsertCellsForOperationQuery` as a statement: the UPSERT keyed on
`(cell_id, operation_id)` replaces any stored row of that key. -/
def upsertCellStmt (cid lvl opId : Nat) (db : DB) : DB :=
  { db with scd_cells_operations :=
      CellRow.mk cid lvl opId ::
        db.scd_cells_operations.filter fun c =>
          decide (¬(c.cell_id = cid ∧ c.operation_id = opId)) }

/-- `deleteLeftOverCellsForOperationQuery`:
`DELETE ... WHERE cell_id != ALL($1) AND operation_id = $2`. -/
def deleteLeftOverCellsStmt (cids : List Nat) (opId : Nat) (db : DB) : DB :=
  { db with scd_cells_operations :=
      db.scd_cells_operations.filter fun c =>
        decide (¬(c.cell_id ∉ cids ∧ c.operation_id = opId)) }

/-- Modelled from the spec: `fetchSubscriptionsForNotification` lives in
the subscription half of the store, which is not in `src/`; per the spec
(section 6) it returns the Subscriptions whose areas of interest
intersect the given cells.  It is a read and does not change the state. -/
def fetchSubscriptionsForNotification (db : DB) (cids : List Nat) : List SubRow :=
  db.scd_subscriptions.filter fun s => s.cells.any fun c => decide (c ∈ cids)

/-- The cell loop of `pushOperation`: one `upsertCellsForOperationQuery`
execution per cell of the new Operation. -/
def pushCells (opId : Nat) : List Nat → DB → List Bool →
    Except Err Unit × DB × List Bool
  | [], db, fl => (Except.ok (), db, fl)
  | c :: rest, db, fl =>
    match execW (upsertCellStmt c (cellLevel c) opId) db fl with
    | (Except.error e, db1, fl1) => (Except.error e, db1, fl1)
    | (Except.ok _, db1, fl1) => pushCells opId rest db1 fl1

/-- `pushOperation`: the Operation row UPSERT (whose RETURNING row is
scanned back and gets the input's cell set reattached), the per-cell
UPSERTs, the leftover-cell DELETE, and the notification fetch. -/
def pushOperation (db : DB) (fl : List Bool) (op : Operation) (now : Int) :
    Except Err (Operation × List SubRow) × DB × List Bool :=
  match execW (upsertOpRowStmt op now) db fl with
  | (Except.error e, db1, fl1) => (Except.error e, db1, fl1)
  | (Except.ok _, db1, fl1) =>
    match pushCells op.id op.cells db1 fl1 with
    | (Except.error e, db2, fl2) => (Except.error e, db2, fl2)
    | (Except.ok _, db2, fl2) =>
      match execW (deleteLeftOverCellsStmt op.cells op.id) db2 fl2 with
      | (Except.error e, db3, fl3) => (Except.error e, db3, fl3)
      | (Except.ok _, db3, fl3) =>
        (Except.ok
          ({ rowToOperation (newOpRow db op now) with cells := op.cells },
            fetchSubscriptionsForNotification db3 op.cells), db3, fl3)

/-- `populateOperationCells`: `SELECT cell_id FROM scd_cells_operations
WHERE operation_id = $1`, replacing the Operation's cell set. -/
def populateOperationCells (db : DB) (o : Operation) : Operation :=
  { o with cells :=
      (db.scd_cells_operations.filter fun c =>
        decide (c.operation_id = o.id)).map fun c => c.cell_id }

/-- `deleteQuery` of `DeleteOperation`:
`DELETE FROM scd_operations WHERE id = $1 AND owner = $2`.  The
`scd_cells_operations` rows of each deleted Operation row are removed
with it.  Modelled from the spec for that cascade: the schema (the
`ON DELETE` behaviour of the cell index's foreign key) is not in `src/`;
per the spec (section 8) zero cell index rows remain for a deleted
Operation's ID. -/
def deleteOpRowStmt (id owner : Nat) (db : DB) : DB :=
  { db with
    scd_operations :=
      db.scd_operations.filter fun r => decide (¬(r.id = id ∧ r.owner = owner)),
    scd_cells_operations :=
      db.scd_cells_operations.filter fun c =>
        !(db.scd_operations.filter fun r =>
            decide (r.id = id ∧ r.owner = owner)).any fun r =>
          decide (r.id = c.operation_id) }

/-- `deleteImplicitSubscriptionQuery`:
`DELETE FROM scd_subscriptions WHERE id = $1 AND owner = $2 AND
implicit = true AND 0 = ALL (SELECT COALESCE(COUNT(id),0) FROM
scd_operations WHERE subscription_id = $1)` — the referencing count is
taken against the operations table as it stands when this statement
runs. -/
def deleteImplicitSubStmt (sid owner : Nat) (db : DB) : DB :=
  { db with scd_subscriptions :=
      db.scd_subscriptions.filter fun s =>
        decide (¬(s.id = sid ∧ s.owner = owner ∧ s.implicit = true ∧
          db.scd_operations.filter (fun r => decide (r.subscription_id = sid)) = [])) }

/-- `DeleteOperation`: fetch (NotFound when absent), ownership check,
cell recovery, notification fetch, then the Operation row delete and the
guarded implicit-Subscription delete. -/
def DeleteOperation (db : DB) (fl : List Bool) (id owner : Nat) :
    Except Err (Operation × List SubRow) × DB × List Bool :=
  match fetchOperationByID db id with
  | Except.error e => (Except.error e, db, fl)
  | Except.ok none => (Except.error Err.notFound, db, fl)
  | Except.ok (some old0) =>
    if old0.owner ≠ owner then (Except.error Err.permissionDenied, db, fl)
    else
      match execW (deleteOpRowStmt id owner) db fl with
      | (Except.error e, db1, fl1) => (Except.error e, db1, fl1)
      | (Except.ok _, db1, fl1) =>
        match execW (deleteImplicitSubStmt old0.subscriptionID owner) db1 fl1 with
        | (Except.error e, db2, fl2) => (Except.error e, db2, fl2)
        | (Except.ok _, db2, fl2) =>
          (Except.ok
            (populateOperationCells db old0,
              fetchSubscriptionsForNotification db
                (populateOperationCells db old0).cells), db2, fl2)

/-- Modelled from the spec: `scdmodels.Version` is not in `src/`; per the
spec (section 3) it is an integer counter, opaque to callers except for
equality and emptiness checks, so the zero value is the empty Version. -/
def versionEmpty (v : Nat) : Bool := decide (v = 0)

/-- Modelled from the spec: `Version.Matches` is equality of the counters. -/
def versionMatches (v w : Nat) : Bool := decide (v = w)

/-- Modelled from the spec: `Operation.ValidateTimeRange` (scd models,
not in `src/`); per the spec (section 4.3 step 6) an inverted start/end
range is rejected with BadRequest. -/
def validTimeRange (s e : Option Int) : Bool :=
  match s, e with
  | some a, some b => decide (a ≤ b)
  | _, _ => true

/-- The `Volume4D` literal built inside `UpsertOperation` for the
conflict search: the new Operation's time window, altitude band, and a
`GeometryFunc` footprint returning its cell set. -/
def opVolume (op : Operation) : Volume4D :=
  { startTime := op.startTime, endTime := op.endTime,
    spatialVolume := some
      { altitudeLo := op.altitudeLower, altitudeHi := op.altitudeUpper,
        footprint := some (Geometry.covering op.cells) } }

/-- The OVN-acknowledgement loop of `UpsertOperation`: the key set is
indexed (`keyIdx`), each found Operation's OVN is looked up and, on a
match, consumed (`delete(keyIdx, op.OVN)`); the id of the first found
Operation whose OVN is absent is reported, `none` when all match. -/
def ovnLoop (key : List OVN) : List Operation → Option Nat
  | [] => none
  | o :: rest =>
    if o.ovn ∈ key then ovnLoop (key.filter fun v => decide (v ≠ o.ovn)) rest
    else some o.id

/-- The state switch of `UpsertOperation`: for `Accepted`/`Activated` the
conflict search runs over the new Operation's volume and the OVN loop
must match every found Operation; for any other state no OVN check is
performed. -/
def checkKeyGate (db : DB) (op : Operation) (key : List OVN) : Except Err Unit :=
  match op.state with
  | OpState.accepted | OpState.activated =>
    match searchOperations db (opVolume op) with
    | Except.error e => Except.error e
    | Except.ok found =>
      match ovnLoop key found with
      | none => Except.ok ()
      | some i => Except.error (Err.missingOVNs i)
  | _ => Except.ok ()

/-- The tail of `UpsertOperation` after the version/ownership switch: time
range validation, the OVN gate, then `pushOperation`. -/
def upsertChecked (db : DB) (fl : List Bool) (op : Operation) (key : List OVN)
    (now : Int) : Except Err (Operation × List SubRow) × DB × List Bool :=
  if validTimeRange op.startTime op.endTime = false then
    (Except.error Err.badRequest, db, fl)
  else
    match checkKeyGate db op key with
    | Except.error e => (Except.error e, db, fl)
    | Except.ok _ => pushOperation db fl op now

/-- `UpsertOperation`: fetch by id, then the ordered switch —
no row and non-empty version: NotFound; a row and empty version:
AlreadyExists; a row and non-matching version: VersionMismatch; a row and
a different owner: PermissionDenied — then `upsertChecked`. -/
def UpsertOperation (db : DB) (fl : List Bool) (op : Operation) (key : List OVN)
    (now : Int) : Except Err (Operation × List SubRow) × DB × List Bool :=
  match fetchOperationByID db op.id with
  | Except.error e => (Except.error e, db, fl)
  | Except.ok none =>
    if versionEmpty op.version = false then (Except.error Err.notFound, db, fl)
    else upsertChecked db fl op key now
  | Except.ok (some o) =>
    if versionEmpty op.version then (Except.error Err.alreadyExists, db, fl)
    else if versionMatches op.version o.version = false then
      (Except.error Err.versionMismatch, db, fl)
    else if o.owner ≠ op.owner then (Except.error Err.permissionDenied, db, fl)
    else upsertChecked db fl op key now

/-- Modelled from the spec: the transactional wrapper that runs each write
path is part of the store's setup, which is not in `src/`; per the spec
(section 5) every write path executes as one atomic transaction and on any
failure all prior statements are rolled back.  `commit` is the committed
database state of a finished write path: the connection state on success,
and the original database when the path failed. -/
def commit {α : Type} (db : DB) (r : Except Err α × DB × List Bool) : DB :=
  match r.1 with
  | Except.ok _ => r.2.1
  | Except.error _ => db

/-! Concrete states and inputs used to evaluate the development on small
examples. -/

def emptyDB : DB :=
  { scd_operations := [], scd_cells_operations := [], scd_subscriptions := [] }

/-- A stored Operation row: id 1 owned by owner 7, version 1,
subscription 5, last modified at time 100, unbounded volume. -/
def exRow : OpRow :=
  { id := 1, owner := 7, version := 1, url := "", altitude_lower := none,
    altitude_upper := none, starts_at := none, ends_at := none,
    subscription_id := 5, updated_at := 100 }

def exDB : DB :=
  { scd_operations := [exRow], scd_cells_operations := [], scd_subscriptions := [] }

/-- An attempted write of id 1 by a different owner (8) with a version (2)
that does not match the stored version (1). -/
def exOpBobV2 : Operation :=
  { id := 1, owner := 8, version := 2, ussBaseURL := "", altitudeLower := none,
    altitudeUpper := none, startTime := none, endTime := none,
    subscriptionID := 5, ovn := NewOVNFromTime 0 0, state := OpState.ended,
    cells := [] }

/-- The same write with the matching version 1. -/
def exOpBobV1 : Operation := { exOpBobV2 with version := 1 }

/-- An update of id 1 by its owner with a non-matching version 2. -/
def exOpAliceV2 : Operation := { exOpBobV2 with owner := 7 }

/-- A create of id 1 (empty version) by its stored owner. -/
def exOpAliceV0 : Operation := { exOpBobV2 with owner := 7, version := 0 }

/-- A fresh create: id 1, owner 7, empty version, cell set {9}, in a state
that is not Accepted/Activated. -/
def exOpNew : Operation := { exOpAliceV0 with cells := [9] }

/-- A state for the delete path: row id 1 (owner 7, subscription 5), its
cell index row for cell 9, and subscription 5 owned by 7, implicit. -/
def exDelDB : DB :=
  { scd_operations := [exRow],
    scd_cells_operations := [CellRow.mk 9 (cellLevel 9) 1],
    scd_subscriptions := [SubRow.mk 5 7 true []] }

/-- A state with a stored Operation id 2 indexed at cell 9. -/
def wRowA : OpRow :=
  { id := 2, owner := 7, version := 1, url := "", altitude_lower := none,
    altitude_upper := none, starts_at := none, ends_at := none,
    subscription_id := 5, updated_at := 100 }

def wDB : DB :=
  { scd_operations := [wRowA],
    scd_cells_operations := [CellRow.mk 9 (cellLevel 9) 2],
    scd_subscriptions := [] }

/-- A fresh Accepted Operation id 1 whose cell set {9} overlaps `wRowA`. -/
def wOpB : Operation :=
  { id := 1, owner := 8, version := 0, ussBaseURL := "", altitudeLower := none,
    altitudeUpper := none, startTime := none, endTime := none,
    subscriptionID := 6, ovn := NewOVNFromTime 0 1, state := OpState.accepted,
    cells := [9] }

/-- A state holding the previous version of Operation 1 itself, indexed at
cell 9. -/
def sDB : DB :=
  { scd_operations := [exRow],
    scd_cells_operations := [CellRow.mk 9 (cellLevel 9) 1],
    scd_subscriptions := [] }

/-- The update of Operation 1 by its owner, Accepted, still covering
cell 9. -/
def sOp : Operation :=
  { id := 1, owner := 7, version := 1, ussBaseURL := "", altitudeLower := none,
    altitudeUpper := none, startTime := none, endTime := none,
    subscriptionID := 5, ovn := NewOVNFromTime 0 1, state := OpState.accepted,
    cells := [9] }

/-- An update of id 1 by its owner with the matching version 1. -/
def exOpAliceV1 : Operation := { exOpAliceV2 with version := 1 }

/-- The same update now covering cell 9. -/
def exOpAliceC9 : Operation := { exOpAliceV1 with cells := [9] }

/-- A state where Operation 1 carries stale cell rows {8, 9}. -/
def exDB7 : DB :=
  { scd_operations := [exRow],
    scd_cells_operations := [CellRow.mk 8 (cellLevel 8) 1, CellRow.mk 9 (cellLevel 9) 1],
    scd_subscriptions := [] }

/-- A second stored row, id 2, also referencing subscription 5. -/
def exRow2 : OpRow := { exRow with id := 2 }

/-- Like `exDelDB` but with two Operations sharing subscription 5. -/
def exDelDB2 : DB :=
  { scd_operations := [exRow, exRow2],
    scd_cells_operations := [CellRow.mk 9 (cellLevel 9) 1],
    scd_subscriptions := [SubRow.mk 5 7 true []] }

/-- A query volume covering exactly cell 9, otherwise unbounded. -/
def exVol9 : Volume4D :=
  { startTime := none, endTime := none,
    spatialVolume := some
      { altitudeLo := none, altitudeHi := none,
        footprint := some (Geometry.covering [9]) } }

/-- The list of Operations the conflict search of `UpsertOperation`
returns over the new Operation's own volume (when its cell set is
non-empty). -/
def foundOps (db : DB) (op : Operation) : List Operation :=
  (db.scd_operations.filter fun r =>
    rowInCells db op.cells r &&
      rowMatchesBounds r op.altitudeLower op.altitudeUpper op.startTime
        op.endTime).map rowToOperation

/-! Helper lemmas. -/

@[simp] theorem rowToOperation_id (r : OpRow) : (rowToOperation r).id = r.id := rfl

@[simp] theorem rowToOperation_owner (r : OpRow) : (rowToOperation r).owner = r.owner := rfl

@[simp] theorem rowToOperation_version (r : OpRow) :
    (rowToOperation r).version = r.version := rfl

@[simp] theorem rowToOperation_ovn (r : OpRow) :
    (rowToOperation r).ovn = NewOVNFromTime r.updated_at r.id := rfl

@[simp] theorem rowToOperation_subscriptionID (r : OpRow) :
    (rowToOperation r).subscriptionID = r.subscription_id := rfl

/-! C5: the version taxonomy of `UpsertOperation`. -/

/-- C5: for every upsert, if no row exists for the ID and the caller
supplied a non-empty Version the call fails with NotFound; if a row exists
and the caller supplied an empty Version it fails with AlreadyExists; if a
row exists and the caller's non-empty Version does not match the stored
Version it fails with VersionMismatch; in each failure case nothing is
written (the returned connection state is the input state). -/
theorem upsert_version_taxonomy (db : DB) (fl : List Bool) (op : Operation)
    (key : List OVN) (now : Int) :
    (db.scd_operations.filter (fun r => decide (r.id = op.id)) = [] →
      op.version ≠ 0 →
      UpsertOperation db fl op key now = (Except.error Err.notFound, db, fl)) ∧
    (∀ r0, db.scd_operations.filter (fun r => decide (r.id = op.id)) = [r0] →
      op.version = 0 →
      UpsertOperation db fl op key now = (Except.error Err.alreadyExists, db, fl)) ∧
    (∀ r0, db.scd_operations.filter (fun r => decide (r.id = op.id)) = [r0] →
      op.version ≠ 0 → op.version ≠ r0.version →
      UpsertOperation db fl op key now = (Except.error Err.versionMismatch, db, fl)) := by
  refine ⟨?_, ?_, ?_⟩
  · intro h hv
    simp [UpsertOperation, fetchOperationByID, h, versionEmpty, hv]
  · intro r0 h hv
    simp [UpsertOperation, fetchOperationByID, h, versionEmpty, hv]
  · intro r0 h hv hm
    simp [UpsertOperation, fetchOperationByID, h, versionEmpty, hv, versionMatches, hm]

/-- Witness for `upsert_version_taxonomy`: the three failure cases at
concrete inputs. -/
theorem upsert_version_taxonomy_witness :
    UpsertOperation emptyDB [] exOpAliceV2 [] 0 = (Except.error Err.notFound, emptyDB, []) ∧
    UpsertOperation exDB [] exOpAliceV0 [] 0 = (Except.error Err.alreadyExists, exDB, []) ∧
    UpsertOperation exDB [] exOpAliceV2 [] 0 = (Except.error Err.versionMismatch, exDB, []) :=
  ⟨(upsert_version_taxonomy emptyDB [] exOpAliceV2 [] 0).1 rfl (by decide),
   (upsert_version_taxonomy exDB [] exOpAliceV0 [] 0).2.1 exRow rfl (by decide),
   (upsert_version_taxonomy exDB [] exOpAliceV2 [] 0).2.2 exRow rfl (by decide) (by decide)⟩

/-! C4: ownership gating.  The claim that a caller with a different Owner
always gets PermissionDenied fails on the code: in `UpsertOperation` the
version checks precede the ownership check, so a wrong owner with a
non-matching version gets VersionMismatch. -/

/-- C4 counterexample: owner 8 upserts Operation 1 stored for owner 7 with
a non-matching version; the call fails with VersionMismatch, not with
PermissionDenied as the claim states. -/
theorem upsert_wrong_owner_wrong_version_is_versionMismatch :
    (UpsertOperation exDB [] exOpBobV2 [] 0).1 = Except.error Err.versionMismatch ∧
      Err.versionMismatch ≠ Err.permissionDenied :=
  ⟨rfl, by decide⟩

/-- C4 (amended): a delete by a non-Owner always fails with
PermissionDenied; an upsert by a non-Owner always fails with nothing
written, and fails with PermissionDenied exactly when the version checks
pass (non-empty Version matching the stored one) — otherwise the version
error takes precedence.  In every case the state is unchanged. -/
theorem owner_gating_amended (db : DB) (fl : List Bool) :
    (∀ (id owner : Nat) (r0 : OpRow),
      db.scd_operations.filter (fun r => decide (r.id = id)) = [r0] →
      r0.owner ≠ owner →
      DeleteOperation db fl id owner = (Except.error Err.permissionDenied, db, fl)) ∧
    (∀ (op : Operation) (key : List OVN) (now : Int) (r0 : OpRow),
      db.scd_operations.filter (fun r => decide (r.id = op.id)) = [r0] →
      r0.owner ≠ op.owner →
      (∃ e, UpsertOperation db fl op key now = (Except.error e, db, fl)) ∧
      (op.version ≠ 0 → op.version = r0.version →
        UpsertOperation db fl op key now = (Except.error Err.permissionDenied, db, fl))) := by
  constructor
  · intro id owner r0 h hown
    simp [DeleteOperation, fetchOperationByID, h, hown]
  · intro op key now r0 h hown
    constructor
    · by_cases hv : op.version = 0
      · exact ⟨Err.alreadyExists, by
          simp [UpsertOperation, fetchOperationByID, h, versionEmpty, hv]⟩
      · by_cases hm : op.version = r0.version
        · exact ⟨Err.permissionDenied, by
            have hv' : r0.version ≠ 0 := hm ▸ hv
            simp [UpsertOperation, fetchOperationByID, h, versionEmpty, hv,
              versionMatches, hm, hv', hown]⟩
        · exact ⟨Err.versionMismatch, by
            simp [UpsertOperation, fetchOperationByID, h, versionEmpty, hv,
              versionMatches, hm]⟩
    · intro hv hm
      have hv' : r0.version ≠ 0 := hm ▸ hv
      simp [UpsertOperation, fetchOperationByID, h, versionEmpty, hv,
        versionMatches, hm, hv', hown]

/-- Witness for `owner_gating_amended`: owner 8 deleting and upserting
(with the matching version) Operation 1 stored for owner 7. -/
theorem owner_gating_amended_witness :
    DeleteOperation exDB [] 1 8 = (Except.error Err.permissionDenied, exDB, []) ∧
    UpsertOperation exDB [] exOpBobV1 [] 0 = (Except.error Err.permissionDenied, exDB, []) :=
  ⟨(owner_gating_amended exDB []).1 1 8 exRow rfl (by decide),
   ((owner_gating_amended exDB []).2 exOpBobV1 [] 0 exRow rfl (by decide)).2
     (by decide) (by decide)⟩

/-! C2: atomicity of the write paths. -/

/-- C2: every write path applies its statements inside one transaction —
whatever statement of the sequence fails (any fault oracle), a failed
`UpsertOperation` or `DeleteOperation` leaves the committed state equal to
the initial state. -/
theorem write_paths_atomic (db : DB) (fl : List Bool) (op : Operation)
    (key : List OVN) (now : Int) (id owner : Nat) :
    (∀ e, (UpsertOperation db fl op key now).1 = Except.error e →
      commit db (UpsertOperation db fl op key now) = db) ∧
    (∀ e, (DeleteOperation db fl id owner).1 = Except.error e →
      commit db (DeleteOperation db fl id owner) = db) := by
  constructor
  · intro e h
    simp [commit, h]
  · intro e h
    simp [commit, h]

/-- Witness for `write_paths_atomic`: an upsert whose second statement (the
first cell upsert) faults after the Operation row statement ran, and a
delete whose first statement faults; both commit to the initial state. -/
theorem write_paths_atomic_witness :
    commit emptyDB (UpsertOperation emptyDB [false, true] exOpNew [] 100) = emptyDB ∧
    commit exDelDB (DeleteOperation exDelDB [true] 1 7) = exDelDB :=
  ⟨(write_paths_atomic emptyDB [false, true] exOpNew [] 100 1 7).1 Err.internal rfl,
   (write_paths_atomic exDelDB [true] exOpNew [] 100 1 7).2 Err.internal rfl⟩

/-! Decomposition lemmas for the write paths. -/

theorem execW_ok {stmt : DB → DB} {db : DB} {fl : List Bool} {u : Unit}
    {db' : DB} {fl' : List Bool}
    (h : execW stmt db fl = (Except.ok u, db', fl')) : db' = stmt db := by
  cases fl with
  | nil =>
    simp only [execW, Prod.mk.injEq] at h
    exact h.2.1.symm
  | cons b rest =>
    by_cases hb : b
    · simp [execW, hb] at h
    · simp only [execW, hb, if_false, Bool.false_eq_true, Prod.mk.injEq] at h
      exact h.2.1.symm

theorem filter_ne_then_eq_nil (l : List OpRow) (i : Nat) :
    (l.filter fun r => decide (r.id ≠ i)).filter (fun r => decide (r.id = i)) = [] := by
  induction l with
  | nil => rfl
  | cons r t ih =>
    by_cases hr : r.id = i
    · simp [List.filter_cons, hr, ih]
    · simp [List.filter_cons, hr, ih]

theorem filter_upsert_head (l : List OpRow) (r : OpRow) (i : Nat) (h : r.id = i) :
    (r :: l.filter (fun x => decide (x.id ≠ i))).filter (fun x => decide (x.id = i)) = [r] := by
  simp [List.filter_cons, h, filter_ne_then_eq_nil]

theorem pushCells_state (opId : Nat) :
    ∀ (cs : List Nat) (db : DB) (fl : List Bool),
      ((pushCells opId cs db fl).2.1).scd_operations = db.scd_operations ∧
      ((pushCells opId cs db fl).2.1).scd_subscriptions = db.scd_subscriptions := by
  intro cs
  induction cs with
  | nil => intro db fl; exact ⟨rfl, rfl⟩
  | cons c rest ih =>
    intro db fl
    cases fl with
    | nil => simpa [pushCells, execW, upsertCellStmt] using ih _ []
    | cons b rest' =>
      by_cases hb : b
      · simp [pushCells, execW, hb]
      · simpa [pushCells, execW, hb, upsertCellStmt] using ih _ rest'

theorem pushCells_ok_mem (opId : Nat) :
    ∀ (cs : List Nat) (db : DB) (fl : List Bool) (u : Unit) (db' : DB)
      (fl' : List Bool),
      pushCells opId cs db fl = (Except.ok u, db', fl') →
      ∀ row : CellRow,
        (row ∈ db'.scd_cells_operations ↔
          (row ∈ db.scd_cells_operations ∧
            ¬(row.operation_id = opId ∧ row.cell_id ∈ cs)) ∨
          (row.operation_id = opId ∧ row.cell_id ∈ cs ∧
            row.cell_level = cellLevel row.cell_id)) := by
  intro cs
  induction cs with
  | nil =>
    intro db fl u db' fl' h row
    simp only [pushCells, Prod.mk.injEq] at h
    obtain ⟨-, hdb, -⟩ := h
    subst hdb
    simp
  | cons c rest ih =>
    intro db fl u db' fl' h row
    rw [pushCells] at h
    rcases h1 : execW (upsertCellStmt c (cellLevel c) opId) db fl with ⟨e1, db1, fl1⟩
    rw [h1] at h
    cases e1 with
    | error e => simp at h
    | ok u1 =>
      have hdb1 : db1 = upsertCellStmt c (cellLevel c) opId db := execW_ok h1
      subst hdb1
      have hmem := ih _ fl1 u db' fl' h row
      obtain ⟨rc, rl, ro⟩ := row
      simp only [upsertCellStmt, List.mem_cons, List.mem_filter, decide_eq_true_eq,
        CellRow.mk.injEq, not_and] at hmem
      simp only [List.mem_cons] at hmem ⊢
      rw [hmem]
      by_cases h1' : ro = opId <;> by_cases h2' : rc = c <;>
        subst_vars <;> simp_all <;> tauto

theorem upsert_ok_push {db : DB} {fl : List Bool} {op : Operation}
    {key : List OVN} {now : Int} {a : Operation × List SubRow} {db' : DB}
    {fl' : List Bool}
    (h : UpsertOperation db fl op key now = (Except.ok a, db', fl')) :
    pushOperation db fl op now = (Except.ok a, db', fl') := by
  unfold UpsertOperation upsertChecked at h
  repeat' split at h
  all_goals first
    | exact h
    | simp at h

theorem pushOperation_ok_state {db : DB} {fl : List Bool} {op : Operation}
    {now : Int} {a : Operation × List SubRow} {db' : DB} {fl' : List Bool}
    (h : pushOperation db fl op now = (Except.ok a, db', fl')) :
    db'.scd_operations =
      newOpRow db op now :: db.scd_operations.filter (fun r => decide (r.id ≠ op.id)) ∧
    (∀ row : CellRow,
      (row ∈ db'.scd_cells_operations ↔
        (row.operation_id ≠ op.id ∧ row ∈ db.scd_cells_operations) ∨
        (row.operation_id = op.id ∧ row.cell_id ∈ op.cells ∧
          row.cell_level = cellLevel row.cell_id))) := by
  unfold pushOperation at h
  split at h
  next e1 db1 fl1 heq1 => exact absurd h (by simp)
  next u1 db1 fl1 heq1 =>
    split at h
    next e2 db2 fl2 heq2 => exact absurd h (by simp)
    next u2 db2 fl2 heq2 =>
      split at h
      next e3 db3 fl3 heq3 => exact absurd h (by simp)
      next u3 db3 fl3 heq3 =>
        have hdb1 : db1 = upsertOpRowStmt op now db := execW_ok heq1
        have hdb3 : db3 = deleteLeftOverCellsStmt op.cells op.id db2 := execW_ok heq3
        simp only [Prod.mk.injEq, Except.ok.injEq] at h
        obtain ⟨-, hdb', -⟩ := h
        subst hdb'
        subst hdb3
        have hops2 : db2.scd_operations = db1.scd_operations := by
          have := (pushCells_state op.id op.cells db1 fl1).1
          rw [heq2] at this
          exact this
        constructor
        · show db2.scd_operations = _
          rw [hops2, hdb1]
          rfl
        · intro row
          have hc2 := pushCells_ok_mem op.id op.cells db1 fl1 u2 db2 fl2 heq2 row
          have hcells1 : db1.scd_cells_operations = db.scd_cells_operations := by
            rw [hdb1]; rfl
          rw [hcells1] at hc2
          obtain ⟨rc, rl, ro⟩ := row
          simp only [deleteLeftOverCellsStmt, List.mem_filter, decide_eq_true_eq]
          rw [hc2]
          by_cases h1' : ro = op.id <;> by_cases h2' : rc ∈ op.cells <;>
            simp_all

/-! C6: version increment. -/

/-- C6: a successful upsert stores version `COALESCE(old, 0) + 1`: the
stored Version afterwards is the previously stored Version plus one, and
is 1 when no row previously existed. -/
theorem upsert_version_increment (db : DB) (fl : List Bool) (op : Operation)
    (key : List OVN) (now : Int) (a : Operation × List SubRow) (db' : DB)
    (fl' : List Bool)
    (h : UpsertOperation db fl op key now = (Except.ok a, db', fl')) :
    (db.scd_operations.filter (fun r => decide (r.id = op.id)) = [] →
      ∃ r', db'.scd_operations.filter (fun r => decide (r.id = op.id)) = [r'] ∧
        r'.version = 1) ∧
    (∀ r0, db.scd_operations.filter (fun r => decide (r.id = op.id)) = [r0] →
      ∃ r', db'.scd_operations.filter (fun r => decide (r.id = op.id)) = [r'] ∧
        r'.version = r0.version + 1) := by
  have hops := (pushOperation_ok_state (upsert_ok_push h)).1
  constructor
  · intro h0
    refine ⟨newOpRow db op now, ?_, ?_⟩
    · rw [hops]
      exact filter_upsert_head db.scd_operations _ _ rfl
    · simp [newOpRow, h0]
  · intro r0 h0
    refine ⟨newOpRow db op now, ?_, ?_⟩
    · rw [hops]
      exact filter_upsert_head db.scd_operations _ _ rfl
    · simp [newOpRow, h0]

/-- Witness for `upsert_version_increment`: a first write stores
version 1; an update of a version-1 row stores version 2. -/
theorem upsert_version_increment_witness :
    (∃ r', ((UpsertOperation emptyDB [] exOpNew [] 100).2.1).scd_operations.filter
        (fun r => decide (r.id = exOpNew.id)) = [r'] ∧ r'.version = 1) ∧
    (∃ r', ((UpsertOperation exDB [] exOpAliceV1 [] 200).2.1).scd_operations.filter
        (fun r => decide (r.id = exOpAliceV1.id)) = [r'] ∧
        r'.version = exRow.version + 1) :=
  ⟨(upsert_version_increment emptyDB [] exOpNew [] 100 _ _ _ rfl).1 rfl,
   (upsert_version_increment exDB [] exOpAliceV1 [] 200 _ _ _ rfl).2 exRow rfl⟩

/-! C7: the cell index equals the upserted cell set. -/

/-- C7: after a successful upsert of an Operation with cell set C, the
cell index rows for that Operation's ID are exactly C — a row for a cell
and level exists iff the cell is in C and the level is the cell's level;
stale rows from previous writes are gone. -/
theorem upsert_cells_exact (db : DB) (fl : List Bool) (op : Operation)
    (key : List OVN) (now : Int) (a : Operation × List SubRow) (db' : DB)
    (fl' : List Bool)
    (h : UpsertOperation db fl op key now = (Except.ok a, db', fl')) :
    ∀ cid lvl,
      (CellRow.mk cid lvl op.id ∈ db'.scd_cells_operations ↔
        cid ∈ op.cells ∧ lvl = cellLevel cid) := by
  have hcells := (pushOperation_ok_state (upsert_ok_push h)).2
  intro cid lvl
  have := hcells (CellRow.mk cid lvl op.id)
  simpa [and_comm, eq_comm] using this

/-- Witness for `upsert_cells_exact`: updating Operation 1 (stale cells
{8, 9}) to cell set {9} keeps the row for cell 9 and drops cell 8. -/
theorem upsert_cells_exact_witness :
    (CellRow.mk 9 (cellLevel 9) 1 ∈
        ((UpsertOperation exDB7 [] exOpAliceC9 [] 200).2.1).scd_cells_operations ↔
      (9 : Nat) ∈ exOpAliceC9.cells ∧ cellLevel 9 = cellLevel 9) ∧
    (CellRow.mk 8 (cellLevel 8) 1 ∈
        ((UpsertOperation exDB7 [] exOpAliceC9 [] 200).2.1).scd_cells_operations ↔
      (8 : Nat) ∈ exOpAliceC9.cells ∧ cellLevel 8 = cellLevel 8) :=
  ⟨upsert_cells_exact exDB7 [] exOpAliceC9 [] 200 _ _ _ rfl 9 (cellLevel 9),
   upsert_cells_exact exDB7 [] exOpAliceC9 [] 200 _ _ _ rfl 8 (cellLevel 8)⟩

theorem delete_ok_state {db : DB} {fl : List Bool} {id owner : Nat}
    {a : Operation × List SubRow} {db' : DB} {fl' : List Bool}
    (h : DeleteOperation db fl id owner = (Except.ok a, db', fl')) :
    ∃ r0, db.scd_operations.filter (fun r => decide (r.id = id)) = [r0] ∧
      r0.owner = owner ∧
      db' = deleteImplicitSubStmt r0.subscription_id owner
        (deleteOpRowStmt id owner db) ∧
      a.1 = populateOperationCells db (rowToOperation r0) := by
  rcases hl : db.scd_operations.filter (fun r => decide (r.id = id)) with _ | ⟨r0, rest⟩
  · simp [DeleteOperation, fetchOperationByID, hl] at h
  · rcases rest with _ | ⟨r1, t⟩
    · simp only [DeleteOperation, fetchOperationByID, hl] at h
      by_cases hown : r0.owner = owner
      · have hcond : ¬((rowToOperation r0).owner ≠ owner) := by
          simp [hown]
        rw [if_neg hcond] at h
        refine ⟨r0, hl, hown, ?_⟩
        split at h
        next e1 db1 fl1 heq1 => exact absurd h (by simp)
        next u1 db1 fl1 heq1 =>
          split at h
          next e2 db2 fl2 heq2 => exact absurd h (by simp)
          next u2 db2 fl2 heq2 =>
            have hdb1 : db1 = deleteOpRowStmt id owner db := execW_ok heq1
            have hdb2 : db2 =
                deleteImplicitSubStmt (rowToOperation r0).subscriptionID owner db1 :=
              execW_ok heq2
            simp only [Prod.mk.injEq, Except.ok.injEq] at h
            obtain ⟨ha, hdb', -⟩ := h
            subst hdb'
            subst hdb2
            subst hdb1
            refine ⟨rfl, ?_⟩
            rw [← ha]
      · have hcond : (rowToOperation r0).owner ≠ owner := by
          simpa using hown
        rw [if_pos hcond] at h
        exact absurd h (by simp)
    · simp [DeleteOperation, fetchOperationByID, hl] at h

/-! C3: a delete leaves no cell index rows for the ID. -/

/-- C3: after a successful delete of an Operation, zero
`scd_cells_operations` rows remain for its ID. -/
theorem delete_removes_cells (db : DB) (fl : List Bool) (id owner : Nat)
    (a : Operation × List SubRow) (db' : DB) (fl' : List Bool)
    (h : DeleteOperation db fl id owner = (Except.ok a, db', fl')) :
    db'.scd_cells_operations.filter (fun c => decide (c.operation_id = id)) = [] := by
  obtain ⟨r0, hf, hown, hdb', -⟩ := delete_ok_state h
  subst hdb'
  have hr0 : r0 ∈ db.scd_operations ∧ r0.id = id := by
    have hm : r0 ∈ db.scd_operations.filter (fun r => decide (r.id = id)) := by
      rw [hf]; exact List.mem_singleton_self r0
    have := List.mem_filter.mp hm
    exact ⟨this.1, by simpa using this.2⟩
  rw [List.filter_eq_nil_iff]
  intro c hc
  simp only [decide_eq_true_eq]
  intro hcid
  have hc' : c ∈ (deleteOpRowStmt id owner db).scd_cells_operations := hc
  simp only [deleteOpRowStmt, List.mem_filter, Bool.not_eq_true',
    List.any_eq_false, decide_eq_true_eq] at hc'
  have hno := hc'.2 r0 ⟨hr0.1, hr0.2, hown⟩
  exact hno (by rw [hr0.2, hcid])

/-- Witness for `delete_removes_cells`: deleting Operation 1 leaves no
cell rows with operation_id 1. -/
theorem delete_removes_cells_witness :
    ((DeleteOperation exDelDB [] 1 7).2.1).scd_cells_operations.filter
      (fun c => decide (c.operation_id = 1)) = [] :=
  delete_removes_cells exDelDB [] 1 7 _ _ _ rfl

/-! C9: the implicit-subscription cascade. -/

/-- C9: after a successful delete, a stored subscription row is removed
exactly when it is the deleted Operation's subscription, is owned by the
deleting owner, is implicit, and no remaining Operation references its
ID; so deleting the last referencing Operation removes an implicit
Subscription while deleting one of several sharers keeps it. -/
theorem delete_implicit_sub_cascade (db : DB) (fl : List Bool) (id owner : Nat)
    (a : Operation × List SubRow) (db' : DB) (fl' : List Bool)
    (h : DeleteOperation db fl id owner = (Except.ok a, db', fl')) :
    ∀ s ∈ db.scd_subscriptions,
      (s ∉ db'.scd_subscriptions ↔
        (s.id = a.1.subscriptionID ∧ s.owner = owner ∧ s.implicit = true ∧
          db'.scd_operations.filter
            (fun r => decide (r.subscription_id = s.id)) = [])) := by
  obtain ⟨r0, hf, hown, hdb', ha⟩ := delete_ok_state h
  subst hdb'
  intro s hs
  have hsub : a.1.subscriptionID = r0.subscription_id := by rw [ha]; rfl
  rw [hsub]
  constructor
  · intro hnot
    have hC : s.id = r0.subscription_id ∧ s.owner = owner ∧ s.implicit = true ∧
        (deleteOpRowStmt id owner db).scd_operations.filter
          (fun r => decide (r.subscription_id = r0.subscription_id)) = [] := by
      by_contra hc
      exact hnot (List.mem_filter.mpr
        ⟨hs, by simp only [decide_eq_true_eq]; exact hc⟩)
    obtain ⟨h1, h2, h3, h4⟩ := hC
    refine ⟨h1, h2, h3, ?_⟩
    show (deleteOpRowStmt id owner db).scd_operations.filter
        (fun r => decide (r.subscription_id = s.id)) = []
    rw [h1]
    exact h4
  · rintro ⟨h1, h2, h3, h4⟩ hmem
    have hpred := (List.mem_filter.mp hmem).2
    simp only [decide_eq_true_eq] at hpred
    refine hpred ⟨h1, h2, h3, ?_⟩
    have h4' : (deleteOpRowStmt id owner db).scd_operations.filter
        (fun r => decide (r.subscription_id = s.id)) = [] := h4
    rw [h1] at h4'
    exact h4'

/-- Witness for `delete_implicit_sub_cascade`: deleting the last Operation
referencing implicit subscription 5 removes it; deleting one of two
sharers keeps it. -/
theorem delete_implicit_sub_cascade_witness :
    SubRow.mk 5 7 true [] ∉ ((DeleteOperation exDelDB [] 1 7).2.1).scd_subscriptions ∧
    SubRow.mk 5 7 true [] ∈ ((DeleteOperation exDelDB2 [] 1 7).2.1).scd_subscriptions := by
  constructor
  · exact (delete_implicit_sub_cascade exDelDB [] 1 7 _ _ _ rfl
      (SubRow.mk 5 7 true []) (by decide)).mpr (by decide)
  · by_contra hmem
    have := (delete_implicit_sub_cascade exDelDB2 [] 1 7 _ _ _ rfl
      (SubRow.mk 5 7 true []) (by decide)).mp hmem
    exact absurd this (by decide)

/-! C8: characterization of the search. -/

theorem coalesceGe_iff (a b : Option Int) :
    coalesceGe a b = true ↔ ∀ x y, a = some x → b = some y → y ≤ x := by
  cases a <;> cases b <;> simp [coalesceGe]

theorem coalesceLe_iff (a b : Option Int) :
    coalesceLe a b = true ↔ ∀ x y, a = some x → b = some y → x ≤ y := by
  cases a <;> cases b <;> simp [coalesceLe]

theorem searchPred_iff (db : DB) (cov : List Nat) (altLo altHi t0 t1 : Option Int)
    (r : OpRow) :
    (rowInCells db cov r && rowMatchesBounds r altLo altHi t0 t1) = true ↔
      ((∃ cr ∈ db.scd_cells_operations, cr.operation_id = r.id ∧ cr.cell_id ∈ cov) ∧
        (∀ x y, r.altitude_upper = some x → altLo = some y → y ≤ x) ∧
        (∀ x y, r.altitude_lower = some x → altHi = some y → x ≤ y) ∧
        (∀ x y, r.ends_at = some x → t0 = some y → y ≤ x) ∧
        (∀ x y, r.starts_at = some x → t1 = some y → x ≤ y)) := by
  simp [rowInCells, rowMatchesBounds, List.any_eq_true, coalesceGe_iff,
    coalesceLe_iff, and_assoc]

/-- C8: the search fails with BadRequest when the query volume has no
spatial footprint, its covering computation fails, or the covering is
empty; otherwise it returns exactly the Operations with at least one cell
index row in the covering whose four altitude/time bounds overlap the
query (a bound comparison holds vacuously when either side is unbounded),
and the result names each Operation at most once when the stored ids are
distinct. -/
theorem search_characterization (db : DB) (v4d : Volume4D) :
    (v4d.spatialVolume = none →
      searchOperations db v4d = Except.error Err.badRequest) ∧
    (∀ sv, v4d.spatialVolume = some sv → sv.footprint = none →
      searchOperations db v4d = Except.error Err.badRequest) ∧
    (∀ sv g, v4d.spatialVolume = some sv → sv.footprint = some g →
      CalculateCovering g = Except.error () →
      searchOperations db v4d = Except.error Err.badRequest) ∧
    (∀ sv g, v4d.spatialVolume = some sv → sv.footprint = some g →
      CalculateCovering g = Except.ok [] →
      searchOperations db v4d = Except.error Err.badRequest) ∧
    (∀ sv g cov res, v4d.spatialVolume = some sv → sv.footprint = some g →
      CalculateCovering g = Except.ok cov →
      searchOperations db v4d = Except.ok res →
      ∀ o, (o ∈ res ↔
        ∃ r ∈ db.scd_operations, o = rowToOperation r ∧
          (∃ cr ∈ db.scd_cells_operations, cr.operation_id = r.id ∧
            cr.cell_id ∈ cov) ∧
          (∀ x y, r.altitude_upper = some x → sv.altitudeLo = some y → y ≤ x) ∧
          (∀ x y, r.altitude_lower = some x → sv.altitudeHi = some y → x ≤ y) ∧
          (∀ x y, r.ends_at = some x → v4d.startTime = some y → y ≤ x) ∧
          (∀ x y, r.starts_at = some x → v4d.endTime = some y → x ≤ y))) ∧
    ((db.scd_operations.map (fun r => r.id)).Nodup →
      ∀ res, searchOperations db v4d = Except.ok res →
        (res.map (fun o => o.id)).Nodup) := by
  refine ⟨?_, ?_, ?_, ?_, ?_, ?_⟩
  · intro h
    simp [searchOperations, h]
  · intro sv h1 h2
    simp [searchOperations, h1, h2]
  · intro sv g h1 h2 h3
    simp [searchOperations, h1, h2, h3]
  · intro sv g h1 h2 h3
    simp [searchOperations, h1, h2, h3]
  · intro sv g cov res h1 h2 h3 h4 o
    simp only [searchOperations, h1, h2, h3] at h4
    by_cases hcov : cov.isEmpty
    · rw [if_pos hcov] at h4
      exact absurd h4 (by simp)
    · rw [if_neg hcov] at h4
      simp only [Except.ok.injEq] at h4
      subst h4
      simp only [List.mem_map, List.mem_filter, searchPred_iff]
      constructor
      · rintro ⟨r, ⟨hrmem, hpred⟩, rfl⟩
        exact ⟨r, hrmem, rfl, hpred⟩
      · rintro ⟨r, hrmem, rfl, hpred⟩
        exact ⟨r, ⟨hrmem, hpred⟩, rfl⟩
  · intro hnd res h4
    unfold searchOperations at h4
    repeat' split at h4
    all_goals simp at h4
    subst h4
    rw [List.map_map,
      show ((fun o : Operation => o.id) ∘ rowToOperation) = (fun r : OpRow => r.id)
        from rfl]
    exact hnd.sublist ((List.filter_sublist _).map _)

/-- Witness for `search_characterization`: a query with no spatial volume
fails with BadRequest; a query covering cell 9 over `exDelDB` returns a
deduplicated result containing Operation 1. -/
theorem search_characterization_witness :
    searchOperations exDelDB { startTime := none, endTime := none, spatialVolume := none } =
      Except.error Err.badRequest ∧
    ([rowToOperation exRow].map (fun o => o.id)).Nodup ∧
    rowToOperation exRow ∈ [rowToOperation exRow] := by
  refine ⟨(search_characterization exDelDB ⟨none, none, none⟩).1 rfl, ?_, ?_⟩
  · exact (search_characterization exDelDB exVol9).2.2.2.2.2 (by decide)
      [rowToOperation exRow] rfl
  · exact ((search_characterization exDelDB exVol9).2.2.2.2.1 _ _ _ _ rfl rfl rfl rfl
      (rowToOperation exRow)).mpr
      ⟨exRow, by decide, rfl,
        ⟨CellRow.mk 9 (cellLevel 9) 1, by decide, rfl, by decide⟩,
        by simp [exRow], by simp [exRow], by simp [exRow], by simp [exRow]⟩

/-! C1 and C10: the OVN-acknowledgement gate. -/

theorem ovnLoop_congr : ∀ (found : List Operation) (key key' : List OVN),
    (∀ o ∈ found, (o.ovn ∈ key ↔ o.ovn ∈ key')) →
    ovnLoop key found = ovnLoop key' found := by
  intro found
  induction found with
  | nil => intro key key' h; rfl
  | cons o rest ih =>
    intro key key' h
    have ho := h o (List.mem_cons_self o rest)
    by_cases hk : o.ovn ∈ key
    · have hk' : o.ovn ∈ key' := ho.mp hk
      simp only [ovnLoop]
      rw [if_pos hk, if_pos hk']
      apply ih
      intro o' ho'
      constructor
      · intro hm
        have hm' := List.mem_filter.mp hm
        exact List.mem_filter.mpr
          ⟨(h o' (List.mem_cons_of_mem _ ho')).mp hm'.1, hm'.2⟩
      · intro hm
        have hm' := List.mem_filter.mp hm
        exact List.mem_filter.mpr
          ⟨(h o' (List.mem_cons_of_mem _ ho')).mpr hm'.1, hm'.2⟩
    · have hk' : o.ovn ∉ key' := fun hc => hk (ho.mpr hc)
      simp only [ovnLoop]
      rw [if_neg hk, if_neg hk']

theorem ovnLoop_eq_find : ∀ (found : List Operation),
    found.Pairwise (fun a b => a.ovn ≠ b.ovn) → ∀ key : List OVN,
    ovnLoop key found =
      (found.find? (fun o => decide (o.ovn ∉ key))).map (fun o => o.id) := by
  intro found
  induction found with
  | nil => intro hp key; rfl
  | cons o rest ih =>
    intro hp key
    obtain ⟨hhead, htail⟩ := List.pairwise_cons.mp hp
    by_cases hk : o.ovn ∈ key
    · simp only [ovnLoop]
      rw [if_pos hk]
      have hcongr :
          ovnLoop (key.filter fun v => decide (v ≠ o.ovn)) rest = ovnLoop key rest := by
        apply ovnLoop_congr
        intro o' ho'
        constructor
        · intro hm
          exact (List.mem_filter.mp hm).1
        · intro hm
          refine List.mem_filter.mpr ⟨hm, ?_⟩
          simp only [decide_eq_true_eq]
          exact fun hq => (hhead o' ho') hq.symm
      rw [hcongr, ih htail key, List.find?_cons_of_neg]
      simp [hk]
    · simp only [ovnLoop]
      rw [if_neg hk, List.find?_cons_of_pos]
      · rfl
      · simp [hk]

theorem search_ok_pairwise {db : DB} {v4d : Volume4D} {found : List Operation}
    (hnd : (db.scd_operations.map (fun r => r.id)).Nodup)
    (h : searchOperations db v4d = Except.ok found) :
    found.Pairwise (fun a b => a.ovn ≠ b.ovn) := by
  unfold searchOperations at h
  repeat' split at h
  all_goals simp at h
  subst h
  rw [List.pairwise_map]
  have hpw : db.scd_operations.Pairwise (fun a b => a.id ≠ b.id) :=
    List.pairwise_map.mp hnd
  exact (hpw.filter _).imp fun hab hovn => hab (congrArg OVN.opId hovn)

theorem upsert_routes (db : DB) (fl : List Bool) (op : Operation) (key : List OVN)
    (now : Int)
    (hok : (db.scd_operations.filter (fun r => decide (r.id = op.id)) = [] ∧
        op.version = 0) ∨
      (∃ r0, db.scd_operations.filter (fun r => decide (r.id = op.id)) = [r0] ∧
        op.version ≠ 0 ∧ op.version = r0.version ∧ r0.owner = op.owner)) :
    UpsertOperation db fl op key now = upsertChecked db fl op key now := by
  rcases hok with ⟨hf, hv⟩ | ⟨r0, hf, hv, hm, hown⟩
  · simp [UpsertOperation, fetchOperationByID, hf, versionEmpty, hv]
  · have hv' : r0.version ≠ 0 := hm ▸ hv
    simp [UpsertOperation, fetchOperationByID, hf, versionEmpty, hv, hv',
      versionMatches, hm, hown]

theorem upsertChecked_gate (db : DB) (fl : List Bool) (op : Operation)
    (key : List OVN) (now : Int)
    (htime : validTimeRange op.startTime op.endTime = true) :
    upsertChecked db fl op key now =
      match checkKeyGate db op key with
      | Except.error e => (Except.error e, db, fl)
      | Except.ok _ => pushOperation db fl op now := by
  simp [upsertChecked, htime]

/-- C1: under the preconditions of a write (version and ownership checks
passing, valid time range), an upsert targeting state Accepted or
Activated consults the conflict search over the new Operation's volume:
it proceeds to the write exactly when every found Operation's OVN is in
the supplied key, and otherwise fails with MissingOVNs naming the first
unmatched found Operation; supplied OVNs matching no found Operation have
no effect; for any other target state no OVN check is performed and the
write proceeds regardless of the key. -/
theorem upsert_ovn_gate (db : DB) (fl : List Bool) (op : Operation)
    (key : List OVN) (now : Int)
    (hok : (db.scd_operations.filter (fun r => decide (r.id = op.id)) = [] ∧
        op.version = 0) ∨
      (∃ r0, db.scd_operations.filter (fun r => decide (r.id = op.id)) = [r0] ∧
        op.version ≠ 0 ∧ op.version = r0.version ∧ r0.owner = op.owner))
    (htime : validTimeRange op.startTime op.endTime = true) :
    ((op.state = OpState.accepted ∨ op.state = OpState.activated) →
      ∀ found, searchOperations db (opVolume op) = Except.ok found →
        (db.scd_operations.map (fun r => r.id)).Nodup →
        ((∀ o ∈ found, o.ovn ∈ key) →
          UpsertOperation db fl op key now = pushOperation db fl op now) ∧
        (∀ o0, found.find? (fun o => decide (o.ovn ∉ key)) = some o0 →
          UpsertOperation db fl op key now =
            (Except.error (Err.missingOVNs o0.id), db, fl))) ∧
    ((op.state ≠ OpState.accepted ∧ op.state ≠ OpState.activated) →
      UpsertOperation db fl op key now = pushOperation db fl op now) ∧
    (∀ extras found, searchOperations db (opVolume op) = Except.ok found →
      (∀ v ∈ extras, ∀ o ∈ found, o.ovn ≠ v) →
      UpsertOperation db fl op (extras ++ key) now =
        UpsertOperation db fl op key now) := by
  have hroute := upsert_routes db fl op key now hok
  refine ⟨?_, ?_, ?_⟩
  · intro hstate found hsearch hnd
    have hpw := search_ok_pairwise hnd hsearch
    constructor
    · intro hall
      have hnone : ovnLoop key found = none := by
        rw [ovnLoop_eq_find found hpw key]
        simp only [Option.map_eq_none', List.find?_eq_none, decide_eq_true_eq,
          not_not]
        exact hall
      have hgate : checkKeyGate db op key = Except.ok () := by
        rcases hstate with h | h <;> simp [checkKeyGate, h, hsearch, hnone]
      rw [hroute, upsertChecked_gate db fl op key now htime, hgate]
    · intro o0 hfind
      have hsome : ovnLoop key found = some o0.id := by
        rw [ovnLoop_eq_find found hpw key, hfind]
        rfl
      have hgate : checkKeyGate db op key = Except.error (Err.missingOVNs o0.id) := by
        rcases hstate with h | h <;> simp [checkKeyGate, h, hsearch, hsome]
      rw [hroute, upsertChecked_gate db fl op key now htime, hgate]
  · intro hstate
    have hgate : checkKeyGate db op key = Except.ok () := by
      cases hst : op.state
      case accepted => exact absurd hst hstate.1
      case activated => exact absurd hst hstate.2
      all_goals simp [checkKeyGate, hst]
    rw [hroute, upsertChecked_gate db fl op key now htime, hgate]
  · intro extras found hsearch hdisj
    have hroute2 := upsert_routes db fl op (extras ++ key) now hok
    have hloop : ovnLoop (extras ++ key) found = ovnLoop key found := by
      apply ovnLoop_congr
      intro o ho
      simp only [List.mem_append]
      constructor
      · rintro (hm | hm)
        · exact absurd rfl (hdisj _ hm o ho)
        · exact hm
      · exact fun hm => Or.inr hm
    have hgate : checkKeyGate db op (extras ++ key) = checkKeyGate db op key := by
      cases hst : op.state
      all_goals simp [checkKeyGate, hst, hsearch, hloop]
    rw [hroute, hroute2, upsertChecked_gate db fl op (extras ++ key) now htime,
      upsertChecked_gate db fl op key now htime, hgate]

/-- Witness for `upsert_ovn_gate`: the Accepted create of `wOpB` over
`wDB` fails with MissingOVNs naming Operation 2 when the key is empty,
succeeds into the write when the key holds Operation 2's OVN, and a
non-Accepted create skips the check entirely. -/
theorem upsert_ovn_gate_witness :
    UpsertOperation wDB [] wOpB [] 0 =
      (Except.error (Err.missingOVNs 2), wDB, []) ∧
    UpsertOperation wDB [] wOpB [NewOVNFromTime 100 2] 0 =
      pushOperation wDB [] wOpB 0 ∧
    UpsertOperation emptyDB [] exOpNew [] 100 =
      pushOperation emptyDB [] exOpNew 100 := by
  refine ⟨?_, ?_, ?_⟩
  · exact ((upsert_ovn_gate wDB [] wOpB [] 0 (Or.inl ⟨rfl, rfl⟩) rfl).1
      (Or.inl rfl) [rowToOperation wRowA] rfl (by decide)).2
      (rowToOperation wRowA) rfl
  · exact ((upsert_ovn_gate wDB [] wOpB [NewOVNFromTime 100 2] 0
      (Or.inl ⟨rfl, rfl⟩) rfl).1
      (Or.inl rfl) [rowToOperation wRowA] rfl (by decide)).1 (by decide)
  · exact (upsert_ovn_gate emptyDB [] exOpNew [] 100 (Or.inl ⟨rfl, rfl⟩) rfl).2.1
      ⟨by decide, by decide⟩

/-- C10: the conflict search does not exclude the Operation being
written — updating an existing Accepted/Activated Operation whose new
volume still intersects its own indexed cells and bounds finds the stored
previous version of that same Operation among the conflicts, and when its
current OVN is not in the supplied key the upsert fails with
MissingOVNs. -/
theorem upsert_self_conflict (db : DB) (fl : List Bool) (op : Operation)
    (key : List OVN) (now : Int) (r0 : OpRow)
    (hr : db.scd_operations.filter (fun x => decide (x.id = op.id)) = [r0])
    (hnd : (db.scd_operations.map (fun x => x.id)).Nodup)
    (hv : op.version ≠ 0) (hm : op.version = r0.version)
    (hown : r0.owner = op.owner)
    (htime : validTimeRange op.startTime op.endTime = true)
    (hstate : op.state = OpState.accepted ∨ op.state = OpState.activated)
    (hcell : ∃ cr ∈ db.scd_cells_operations,
      cr.operation_id = op.id ∧ cr.cell_id ∈ op.cells)
    (hbounds : rowMatchesBounds r0 op.altitudeLower op.altitudeUpper op.startTime
      op.endTime = true)
    (hovn : NewOVNFromTime r0.updated_at r0.id ∉ key) :
    (searchOperations db (opVolume op) = Except.ok (foundOps db op) ∧
      rowToOperation r0 ∈ foundOps db op) ∧
    (∃ i, (UpsertOperation db fl op key now).1 = Except.error (Err.missingOVNs i)) := by
  obtain ⟨cr, hcrmem, hcr1, hcr2⟩ := hcell
  have hne : op.cells.isEmpty = false := by
    cases hc : op.cells with
    | nil => rw [hc] at hcr2; simp at hcr2
    | cons c t => rfl
  have hsearch : searchOperations db (opVolume op) = Except.ok (foundOps db op) := by
    simp [searchOperations, opVolume, CalculateCovering, hne, foundOps]
  have hr0mem : r0 ∈ db.scd_operations := by
    have hm0 : r0 ∈ db.scd_operations.filter (fun x => decide (x.id = op.id)) := by
      rw [hr]; exact List.mem_singleton_self r0
    exact (List.mem_filter.mp hm0).1
  have hr0id : r0.id = op.id := by
    have hm0 : r0 ∈ db.scd_operations.filter (fun x => decide (x.id = op.id)) := by
      rw [hr]; exact List.mem_singleton_self r0
    simpa using (List.mem_filter.mp hm0).2
  have hmemfound : rowToOperation r0 ∈ foundOps db op := by
    refine List.mem_map.mpr ⟨r0, List.mem_filter.mpr ⟨hr0mem, ?_⟩, rfl⟩
    simp only [Bool.and_eq_true, hbounds, and_true]
    simp only [rowInCells, List.any_eq_true, Bool.and_eq_true, decide_eq_true_eq]
    exact ⟨cr, hcrmem, by rw [hcr1, hr0id], hcr2⟩
  refine ⟨⟨hsearch, hmemfound⟩, ?_⟩
  have hroute := upsert_routes db fl op key now (Or.inr ⟨r0, hr, hv, hm, hown⟩)
  have hpw := search_ok_pairwise hnd hsearch
  rcases hfind : (foundOps db op).find? (fun o => decide (o.ovn ∉ key)) with _ | o0
  · exfalso
    rw [List.find?_eq_none] at hfind
    exact hfind (rowToOperation r0) hmemfound (by simpa using hovn)
  · refine ⟨o0.id, ?_⟩
    have hsome : ovnLoop key (foundOps db op) = some o0.id := by
      rw [ovnLoop_eq_find _ hpw, hfind]
      rfl
    have hgate : checkKeyGate db op key = Except.error (Err.missingOVNs o0.id) := by
      rcases hstate with h | h <;> simp [checkKeyGate, h, hsearch, hsome]
    rw [hroute, upsertChecked_gate db fl op key now htime, hgate]

/-- Witness for `upsert_self_conflict`: owner 7 updates its own Accepted
Operation 1 (still on cell 9) without supplying the Operation's own OVN;
the previous version is found as a conflict and the upsert fails with
MissingOVNs. -/
theorem upsert_self_conflict_witness :
    (searchOperations sDB (opVolume sOp) = Except.ok (foundOps sDB sOp) ∧
      rowToOperation exRow ∈ foundOps sDB sOp) ∧
    (∃ i, (UpsertOperation sDB [] sOp [] 0).1 = Except.error (Err.missingOVNs i)) :=
  upsert_self_conflict sDB [] sOp [] 0 exRow rfl (by decide) (by decide) rfl rfl rfl
    (Or.inl rfl) ⟨CellRow.mk 9 (cellLevel 9) 1, by decide, rfl, by decide⟩
    (by decide) (by decide)

end DSS
